import Mathlib

/-
Verification development for the Hartley action server (Go source).
The Go program resolves an incoming textual action to a registered script,
a shell-command facility, or remotely generated code, runs it in an external
Python interpreter, recovers a JSON result from the raw output, and audits
the request/response pair.  External collaborators (process execution, the
remote generation HTTP call, temp-file creation, the audit store) are
modelled as oracle fields of a World structure; everything else is a direct
shallow embedding of the source functions.
-/

namespace Hartley

/-- Byte strings of the Go source are modelled as lists of characters. -/
abbrev Str := List Char

/- Named characters, used instead of escape-laden literals. -/

def tabC : Char := Char.ofNat 9

def nlC : Char := Char.ofNat 10

def crC : Char := Char.ofNat 13

def spaceC : Char := Char.ofNat 32

def quoteC : Char := Char.ofNat 34

def commaC : Char := Char.ofNat 44

def colonC : Char := Char.ofNat 58

def lbrackC : Char := Char.ofNat 91

def bslashC : Char := Char.ofNat 92

def rbrackC : Char := Char.ofNat 93

def lbraceC : Char := Char.ofNat 123

def rbraceC : Char := Char.ofNat 125

/-- The whitespace characters recognised by encoding/json and TrimSpace
(ASCII subset). -/
def isWsChar (c : Char) : Bool :=
  c = spaceC || c = tabC || c = nlC || c = crC

def skipWs : Str → Str
  | [] => []
  | c :: rest => if isWsChar c then skipWs rest else c :: rest

/-- Models strings.TrimSpace (ASCII whitespace). -/
def trim (s : Str) : Str :=
  ((s.dropWhile isWsChar).reverse.dropWhile isWsChar).reverse

/-- Models strings.Contains. -/
def containsStr (hay sub : Str) : Bool :=
  match hay with
  | [] => sub.isEmpty
  | _ :: t => sub.isPrefixOf hay || containsStr t sub

/-- Models strings.Split with separator newline. -/
def splitNl : Str → List Str
  | [] => [[]]
  | c :: rest =>
    if c = nlC then [] :: splitNl rest
    else
      match splitNl rest with
      | l :: ls => (c :: l) :: ls
      | [] => [[c]]

/-- JSON values, the shape of interface-typed values produced by
encoding/json (numbers restricted to integers: no input in this
development needs fractions or exponents). -/
inductive JVal where
  | null : JVal
  | bool : Bool → JVal
  | num : Int → JVal
  | str : Str → JVal
  | arr : List JVal → JVal
  | obj : List (Str × JVal) → JVal

/-- A decoded JSON object: what Go represents as a string-keyed map. -/
abbrev JObj := List (Str × JVal)

/- A small executable JSON parser modelling json.Unmarshal and
json.Decoder.Decode.  Recursion is fuelled so that every definition is
structural and kernel-reducible. -/

def escCharJ (c : Char) : Option Char :=
  if c = quoteC then some quoteC
  else if c = bslashC then some bslashC
  else if c = '/' then some '/'
  else if c = 'n' then some nlC
  else if c = 't' then some tabC
  else if c = 'r' then some crC
  else if c = 'b' then some (Char.ofNat 8)
  else if c = 'f' then some (Char.ofNat 12)
  else none

/-- Parse the body of a JSON string after the opening quote: returns the
decoded content and the remainder after the closing quote. -/
def parseStrBody : Str → Option (Str × Str)
  | [] => none
  | c :: rest =>
    if c = quoteC then some ([], rest)
    else if c = bslashC then
      match rest with
      | [] => none
      | e :: rest2 =>
        match escCharJ e with
        | none => none
        | some ec =>
          match parseStrBody rest2 with
          | none => none
          | some (s, r) => some (ec :: s, r)
    else
      match parseStrBody rest with
      | none => none
      | some (s, r) => some (c :: s, r)

def isDigitC (c : Char) : Bool :=
  48 ≤ c.toNat && c.toNat ≤ 57

def takeDigits : Str → Str × Str
  | [] => ([], [])
  | c :: rest =>
    if isDigitC c then
      match takeDigits rest with
      | (ds, r) => (c :: ds, r)
    else ([], c :: rest)

def digitsToNat : Str → Nat → Nat
  | [], acc => acc
  | c :: rest, acc => digitsToNat rest (acc * 10 + (c.toNat - 48))

/-- Integer numerals with optional leading minus. -/
def parseNum (s : Str) : Option (Int × Str) :=
  match s with
  | c :: rest =>
    if c = '-' then
      match takeDigits rest with
      | ([], _) => none
      | (ds, r) => some (-(Int.ofNat (digitsToNat ds 0)), r)
    else
      match takeDigits s with
      | ([], _) => none
      | (ds, r) => some (Int.ofNat (digitsToNat ds 0), r)
  | [] => none

def trueLit : Str := "true".data

def falseLit : Str := "false".data

def nullLit : Str := "null".data

def stripLit (lit s : Str) : Option Str :=
  if lit.isPrefixOf s then some (s.drop lit.length) else none

mutual

def parseVal : Nat → Str → Option (JVal × Str)
  | 0, _ => none
  | f + 1, s =>
    match s with
    | [] => none
    | c :: rest =>
      if c = quoteC then
        match parseStrBody rest with
        | some (cs, r) => some (JVal.str cs, r)
        | none => none
      else if c = lbraceC then
        match parseObjTail f (skipWs rest) with
        | some (fs, r) => some (JVal.obj fs, r)
        | none => none
      else if c = lbrackC then
        match parseArrTail f (skipWs rest) with
        | some (xs, r) => some (JVal.arr xs, r)
        | none => none
      else
        match stripLit trueLit s with
        | some r => some (JVal.bool true, r)
        | none =>
          match stripLit falseLit s with
          | some r => some (JVal.bool false, r)
          | none =>
            match stripLit nullLit s with
            | some r => some (JVal.null, r)
            | none =>
              match parseNum s with
              | some (n, r) => some (JVal.num n, r)
              | none => none

def parseObjTail : Nat → Str → Option (List (Str × JVal) × Str)
  | 0, _ => none
  | f + 1, s =>
    match s with
    | [] => none
    | c :: rest =>
      if c = rbraceC then some ([], rest)
      else parseFieldSeq f s

def parseFieldSeq : Nat → Str → Option (List (Str × JVal) × Str)
  | 0, _ => none
  | f + 1, s =>
    match s with
    | [] => none
    | c :: rest =>
      if c = quoteC then
        match parseStrBody rest with
        | none => none
        | some (k, r1) =>
          match skipWs r1 with
          | [] => none
          | c2 :: r2 =>
            if c2 = colonC then
              match parseVal f (skipWs r2) with
              | none => none
              | some (v, r3) =>
                match skipWs r3 with
                | [] => none
                | c3 :: r4 =>
                  if c3 = commaC then
                    match parseFieldSeq f (skipWs r4) with
                    | none => none
                    | some (fs, r5) => some ((k, v) :: fs, r5)
                  else if c3 = rbraceC then some ([(k, v)], r4)
                  else none
            else none
      else none

def parseArrTail : Nat → Str → Option (List JVal × Str)
  | 0, _ => none
  | f + 1, s =>
    match s with
    | [] => none
    | c :: rest =>
      if c = rbrackC then some ([], rest)
      else parseElemSeq f s

def parseElemSeq : Nat → Str → Option (List JVal × Str)
  | 0, _ => none
  | f + 1, s =>
    match parseVal f (skipWs s) with
    | none => none
    | some (v, r1) =>
      match skipWs r1 with
      | [] => none
      | c2 :: r2 =>
        if c2 = commaC then
          match parseElemSeq f (skipWs r2) with
          | none => none
          | some (vs, r3) => some (v :: vs, r3)
        else if c2 = rbrackC then some ([v], r2)
        else none

end

/-- Decode one whole JSON text: the entire byte sequence must be a single
value surrounded only by whitespace (json.Unmarshal semantics). -/
def jsonParse (s : Str) : Option JVal :=
  match parseVal (4 * s.length + 8) (skipWs s) with
  | some (v, r) => if skipWs r = [] then some v else none
  | none => none

/-- Models json.Unmarshal into a string-keyed map: the whole input must be
one JSON object. -/
def jsonDecObj (s : Str) : Option JObj :=
  match jsonParse s with
  | some (JVal.obj fs) => some fs
  | _ => none

/- Serialisation, modelling json.Marshal: object keys are emitted in sorted
order (Go marshals string-keyed maps sorted by key), strings are escaped,
numbers are integer numerals. -/

def escOutChar (c : Char) : Str :=
  if c = quoteC then [bslashC, quoteC]
  else if c = bslashC then [bslashC, bslashC]
  else if c = nlC then [bslashC, 'n']
  else if c = tabC then [bslashC, 't']
  else if c = crC then [bslashC, 'r']
  else [c]

def escOut : Str → Str
  | [] => []
  | c :: rest => escOutChar c ++ escOut rest

def digitChar (d : Nat) : Char := Char.ofNat (48 + d)

def natStrAux : Nat → Nat → Str
  | 0, _ => []
  | f + 1, n => if n < 10 then [digitChar n] else natStrAux f (n / 10) ++ [digitChar (n % 10)]

def natStr (n : Nat) : Str := natStrAux (n + 1) n

def intStr (n : Int) : Str :=
  if n < 0 then '-' :: natStr n.natAbs else natStr n.natAbs

/-- Byte-wise (character-code) strict order on strings, as Go compares
map keys when marshalling. -/
def strLt : Str → Str → Bool
  | [], [] => false
  | [], _ :: _ => true
  | _ :: _, [] => false
  | a :: as, b :: bs =>
    if a.toNat < b.toNat then true
    else if b.toNat < a.toNat then false
    else strLt as bs

def insertField (p : Str × JVal) : List (Str × JVal) → List (Str × JVal)
  | [] => [p]
  | q :: rest => if strLt p.1 q.1 then p :: q :: rest else q :: insertField p rest

def sortFields : List (Str × JVal) → List (Str × JVal)
  | [] => []
  | p :: rest => insertField p (sortFields rest)

def joinComma : List Str → Str
  | [] => []
  | [x] => x
  | x :: y :: rest => x ++ commaC :: joinComma (y :: rest)

def quoteStr (s : Str) : Str := quoteC :: (escOut s ++ [quoteC])

def serJ : Nat → JVal → Str
  | 0, _ => []
  | _ + 1, JVal.null => nullLit
  | _ + 1, JVal.bool true => trueLit
  | _ + 1, JVal.bool false => falseLit
  | _ + 1, JVal.num n => intStr n
  | _ + 1, JVal.str s => quoteStr s
  | f + 1, JVal.arr xs => lbrackC :: (joinComma (xs.map (serJ f)) ++ [rbrackC])
  | f + 1, JVal.obj fs =>
    lbraceC ::
      (joinComma ((sortFields fs).map fun p => quoteStr p.1 ++ colonC :: serJ f p.2)
        ++ [rbraceC])

mutual

/-- Nesting depth of a JSON value, used as fuel for the serialiser. -/
def jvalDepth : JVal → Nat
  | JVal.null => 1
  | JVal.bool _ => 1
  | JVal.num _ => 1
  | JVal.str _ => 1
  | JVal.arr xs => 1 + jvalListDepth xs
  | JVal.obj fs => 1 + jvalFieldsDepth fs

def jvalListDepth : List JVal → Nat
  | [] => 0
  | v :: rest => Nat.max (jvalDepth v) (jvalListDepth rest)

def jvalFieldsDepth : List (Str × JVal) → Nat
  | [] => 0
  | (_, v) :: rest => Nat.max (jvalDepth v) (jvalFieldsDepth rest)

end

/-- Models json.Marshal on a JSON-representable value (marshalling such a
value never fails in Go, so the model is total). -/
def serializeJVal (v : JVal) : Str := serJ (jvalDepth v) v

-- ----------------------
-- Configuration and Action Types (both Go files declare these identically)
-- ----------------------

structure Config where
  serverPort : Nat
  geminiAPIKey : Str
  geminiEndpoint : Str

structure ActionT where
  name : Str
  description : Str
  script : Str
  function : Str
deriving DecidableEq

structure ActionRequest where
  action : Str
  params : JObj

-- ----------------------
-- Gemini Response Structures
-- ----------------------

structure GeminiPart where
  text : Str
deriving DecidableEq

structure GeminiContent where
  parts : List GeminiPart
  role : Str
deriving DecidableEq

structure GeminiCandidate where
  content : GeminiContent
  finishReason : Str
deriving DecidableEq

structure GeminiResponse where
  candidates : List GeminiCandidate
deriving DecidableEq

/- Oracles for the external collaborators of one request. -/

/-- Outcome of running one candidate interpreter binary: combined output
plus the optional error of exec.Cmd.CombinedOutput. -/
inductive ExecErr where
  | notFound : ExecErr
  | failed : Str → ExecErr
deriving BEq, DecidableEq

structure ExecResult where
  out : Str
  err : Option ExecErr
deriving DecidableEq

/-- Rendering of an exec error by fmt fmt-verb v, used in error messages. -/
def errString : ExecErr → Str
  | ExecErr.notFound => "executable file not found in $PATH".data
  | ExecErr.failed m => m

/-- Outcome of the remote generation HTTP POST plus body read. -/
inductive PostOutcome where
  | netErr : PostOutcome
  | readErr : PostOutcome
  | ok : Str → PostOutcome

/-- The external collaborators consulted while handling one request:
process execution keyed by binary name and argument list, the remote
HTTP POST keyed by url and request body, temp-file creation, and the
temp-file write keyed by content. -/
structure World where
  exec : Str → List Str → ExecResult
  post : Str → Str → PostOutcome
  tmpCreate : Option Str
  tmpWrite : Str → Bool

structure AuditRec where
  action : Str
  request : Str
  response : Str
deriving DecidableEq

/-- What the handler hands back to the HTTP layer, together with the audit
attempts it made (each paired with the success flag of the store write). -/
structure HandlerOut where
  status : Nat
  body : JObj
  audits : List (AuditRec × Bool)

/- Decoding JSON values into the request and Gemini envelope structures,
modelling json.Unmarshal into Go structs: unknown fields are ignored,
a missing field or JSON null leaves the zero value, a type mismatch is a
decode error. -/

def jLookup : JObj → Str → Option JVal
  | [], _ => none
  | (k, v) :: rest, key => if k = key then some v else jLookup rest key

def jField {α : Type} (fs : JObj) (k : Str) (conv : JVal → Option α) (dflt : α) : Option α :=
  match jLookup fs k with
  | none => some dflt
  | some v => conv v

def jAsStrF : JVal → Option Str
  | JVal.null => some []
  | JVal.str s => some s
  | _ => none

def jAsObjF : JVal → Option JObj
  | JVal.null => some []
  | JVal.obj fs => some fs
  | _ => none

def jAsPart : JVal → Option GeminiPart
  | JVal.null => some ⟨[]⟩
  | JVal.obj fs => (jField fs "text".data jAsStrF []).map GeminiPart.mk
  | _ => none

def jAsParts : JVal → Option (List GeminiPart)
  | JVal.null => some []
  | JVal.arr xs => xs.mapM jAsPart
  | _ => none

def jAsContent : JVal → Option GeminiContent
  | JVal.null => some ⟨[], []⟩
  | JVal.obj fs => do
    let ps ← jField fs "parts".data jAsParts []
    let r ← jField fs "role".data jAsStrF []
    pure ⟨ps, r⟩
  | _ => none

def jAsCand : JVal → Option GeminiCandidate
  | JVal.null => some ⟨⟨[], []⟩, []⟩
  | JVal.obj fs => do
    let c ← jField fs "content".data jAsContent ⟨[], []⟩
    let fr ← jField fs "finishReason".data jAsStrF []
    pure ⟨c, fr⟩
  | _ => none

def jAsCands : JVal → Option (List GeminiCandidate)
  | JVal.null => some []
  | JVal.arr xs => xs.mapM jAsCand
  | _ => none

/-- Models json.Unmarshal of the raw Gemini body into GeminiResponse. -/
def decodeGemini (s : Str) : Option GeminiResponse :=
  match jsonParse s with
  | none => none
  | some JVal.null => some ⟨[]⟩
  | some (JVal.obj fs) => (jField fs "candidates".data jAsCands []).map GeminiResponse.mk
  | some _ => none

def jvalToActionRequest : JVal → Option ActionRequest
  | JVal.null => some ⟨[], []⟩
  | JVal.obj fs => do
    let a ← jField fs "action".data jAsStrF []
    let p ← jField fs "params".data jAsObjF []
    pure ⟨a, p⟩
  | _ => none

/-- Models json.NewDecoder(r.Body).Decode of the incoming ActionRequest:
the decoder reads the first JSON value from the stream. -/
def decodeActionRequest (s : Str) : Option ActionRequest :=
  match parseVal (4 * s.length + 8) (skipWs s) with
  | some (v, _) => jvalToActionRequest v
  | none => none

/-- Models json.Marshal of the ActionRequest struct: fields in declaration
order with their json tags. -/
def serializeActionRequest (req : ActionRequest) : Str :=
  lbraceC :: (quoteStr "action".data ++ colonC :: quoteStr req.action
    ++ commaC :: quoteStr "params".data ++ colonC :: serializeJVal (JVal.obj req.params)
    ++ [rbraceC])

-- ----------------------
-- extractValidJSON (src/unnamed/part_000 lines 752-768)
-- ----------------------

def noJSONFoundMsg : Str := "no valid JSON found in output".data

/-- The backward for-loop of extractValidJSON: the input list is the line
list already reversed, so walking it forward scans from the last line up.
A blank line, or a line that does not decode, is skipped. -/
def scanBack : List Str → Except Str JObj
  | [] => Except.error noJSONFoundMsg
  | l :: rest =>
    let line := trim l
    if line = [] then scanBack rest
    else
      match jsonDecObj line with
      | some r => Except.ok r
      | none => scanBack rest

/-- extractValidJSON: first try to unmarshal the complete output, then scan
line-by-line from the bottom up for the first valid JSON object. -/
def extractValidJSON (output : Str) : Except Str JObj :=
  match jsonDecObj output with
  | some result => Except.ok result
  | none => scanBack (splitNl output).reverse

-- ----------------------
-- geminiRespToMap (part_000 lines 736-747): marshal the envelope and
-- unmarshal it into a generic map.  On these struct values the marshal and
-- unmarshal steps never fail, so the two error branches of the source are
-- unreachable and the conversion is modelled as the direct map image.
-- ----------------------

def partToJVal (p : GeminiPart) : JVal :=
  JVal.obj [("text".data, JVal.str p.text)]

def contentToJVal (c : GeminiContent) : JVal :=
  JVal.obj [("parts".data, JVal.arr (c.parts.map partToJVal)), ("role".data, JVal.str c.role)]

def candidateToJVal (c : GeminiCandidate) : JVal :=
  JVal.obj [("content".data, contentToJVal c.content), ("finishReason".data, JVal.str c.finishReason)]

def geminiRespToMap (r : GeminiResponse) : JObj :=
  [("candidates".data, JVal.arr (r.candidates.map candidateToJVal))]

-- ----------------------
-- runPython (part_000 lines 432-445, identical in hartley-main.go)
-- ----------------------

def pySentinel : Str := "Python was not found".data

/-- The fallback test of runPython: err != nil and either the error is
exec.ErrNotFound or the combined output contains the sentinel substring. -/
def pyFallback (r : ExecResult) : Bool :=
  match r.err with
  | none => false
  | some e => e == ExecErr.notFound || containsStr r.out pySentinel

/-- runPython: try python3 first, fall back to python, then to py (the
Windows launcher), advancing only when the fallback test fires. -/
def runPython (ex : Str → List Str → ExecResult) (args : List Str) : ExecResult :=
  let r := ex "python3".data args
  if pyFallback r then
    let r2 := ex "python".data args
    if pyFallback r2 then ex "py".data args
    else r2
  else r

-- ----------------------
-- Prompt construction and the Gemini request payload
-- ----------------------

def geminiURL (cfg : Config) : Str :=
  cfg.geminiEndpoint ++ "?key=".data ++ cfg.geminiAPIKey

/-- json.Marshal of the geminiReq payload contents/parts/text nesting. -/
def geminiBody (prompt : Str) : Str :=
  serializeJVal (JVal.obj [("contents".data,
    JVal.arr [JVal.obj [("parts".data,
      JVal.arr [JVal.obj [("text".data, JVal.str prompt)]])]])])

/-- The prompt of handlePythonCommand (part_000 line 531). -/
def pyGenPrompt (payload : Str) : Str :=
  "You are a Python code generation assistant. Generate a valid Python script that, when executed, prints a JSON object with a single key \"result\" containing the answer to the following query: ".data ++ payload

/-- The persona prompt of handleConversational (part_000 line 652). -/
def personaPrompt (query : Str) : Str :=
  "You are a helpful AI assistant. Pretend you are an AI named \x27Hartley\x27. \x27Hartley\x27 was developed by Micah Crandell. \x27Hartley\x27 is running on his device. Hartley is solely a Python code generator/assistant. Hartley\x27s working environment is in Micah\x27s python terminal. Hartley has complete access to Micah\x27s device through the python environment. Your task is to generate valid Python code that, when executed, prints a valid JSON string to standard output. The JSON must be an object with a single key \"result\" whose value is the answer to the user\x27s query. The generated code must include all necessary import statements so that it runs correctly. You must provide the complete python script. Your output must consist solely of plain Python code without any markdown formatting, triple backticks, or code fences. The code must start with a print() statement, and nothing else should be included. Now, process the following query by writing python code: ".data ++ query

-- ----------------------
-- Pipeline stages of actionHandler (part_000 lines 448-514)
-- ----------------------

/-- The registered-action execution of the handler loop body (part_000
lines 481-500): marshal params, run the script through runPython, unmarshal
the output.  Marshalling a params map decoded from JSON never fails, so the
marshalling-error branch of the source is unreachable here. -/
def runRegistered (ex : Str → List Str → ExecResult) (act : ActionT) (params : JObj) : JObj :=
  let paramsJSON := serializeJVal (JVal.obj params)
  let r := runPython ex [act.script, act.function, paramsJSON]
  match r.err with
  | some e =>
    [("error".data, JVal.str ("Error executing action: ".data ++ errString e)),
     ("output".data, JVal.str r.out)]
  | none =>
    match jsonDecObj r.out with
    | some m => m
    | none =>
      [("error".data, JVal.str "Error parsing action output".data),
       ("raw_output".data, JVal.str r.out)]

/-- handleShellCommand (part_000 lines 616-648). -/
def handleShellCommand (w : World) (payload : Str) : JObj :=
  let paramsJSON := serializeJVal (JVal.obj [("command".data, JVal.str payload)])
  let r := runPython w.exec ["python/action_runner.py".data, "run_terminal_command".data, paramsJSON]
  match r.err with
  | some e =>
    [("error".data, JVal.str ("Error executing shell command: ".data ++ errString e)),
     ("output".data, JVal.str r.out)]
  | none =>
    match jsonDecObj r.out with
    | some m => m
    | none =>
      match extractValidJSON r.out with
      | Except.ok m => m
      | Except.error _ =>
        [("error".data, JVal.str "Error parsing shell command output".data),
         ("raw_output".data, JVal.str r.out)]

/-- The post-envelope stages shared verbatim by handlePythonCommand
(part_000 lines 580-612) and handleConversational (lines 700-732): write
the generated code to a temp file, execute it through runPython, parse the
output, falling back to the raw envelope at every failure. -/
def execGenerated (w : World) (env : GeminiResponse) (code : Str) : JObj :=
  match w.tmpCreate with
  | none => geminiRespToMap env
  | some name =>
    if w.tmpWrite code = false then geminiRespToMap env
    else
      let r := runPython w.exec [name]
      match r.err with
      | some _ => geminiRespToMap env
      | none =>
        match jsonDecObj r.out with
        | some parsed => parsed
        | none =>
          match extractValidJSON r.out with
          | Except.ok parsed => parsed
          | Except.error _ => geminiRespToMap env

/-- The remote-generation stages shared by handlePythonCommand and
handleConversational, which differ only in the prompt they build:
POST the payload, read and decode the envelope, check for empty
candidates/parts, then run the generated code. -/
def generateAndRun (w : World) (cfg : Config) (promptText : Str) : JObj :=
  match w.post (geminiURL cfg) (geminiBody promptText) with
  | PostOutcome.netErr => [("error".data, JVal.str "Error calling Gemini API".data)]
  | PostOutcome.readErr => [("error".data, JVal.str "Error reading Gemini response".data)]
  | PostOutcome.ok body =>
    match decodeGemini body with
    | none =>
      [("error".data, JVal.str "Error parsing Gemini response".data),
       ("raw_response".data, JVal.str body)]
    | some env =>
      match env.candidates with
      | [] =>
        [("error".data, JVal.str "No content generated by Gemini".data),
         ("raw_response".data, JVal.str body)]
      | c0 :: _ =>
        match c0.content.parts with
        | [] =>
          [("error".data, JVal.str "No content generated by Gemini".data),
           ("raw_response".data, JVal.str body)]
        | p0 :: _ => execGenerated w env p0.text

/-- handlePythonCommand (part_000 lines 529-613). -/
def handlePythonCommand (w : World) (cfg : Config) (payload : Str) : JObj :=
  generateAndRun w cfg (pyGenPrompt payload)

/-- handleConversational (part_000 lines 651-733). -/
def handleConversational (w : World) (cfg : Config) (query : Str) : JObj :=
  generateAndRun w cfg (personaPrompt query)

/-- parsePrefix (part_000 lines 517-526): a recognised two-character code
followed by a space routes to a directive; otherwise the input is returned
unchanged with an empty code. -/
def parsePfx (input : Str) : Str × Str :=
  match input with
  | c0 :: c1 :: c2 :: rest =>
    if c2 = spaceC then
      if [c0, c1] = "py".data ∨ [c0, c1] = "sh".data then ([c0, c1], trim rest)
      else ([], input)
    else ([], input)
  | _ => ([], input)

/-- The dispatch of actionHandler (part_000 lines 467-508): directive check
first, then the registered-action loop (first name match wins), then the
conversational fallback. -/
def routeAction (w : World) (cfg : Config) (actions : List ActionT) (req : ActionRequest) : JObj :=
  let pr := parsePfx req.action
  if pr.1 = "py".data then handlePythonCommand w cfg pr.2
  else if pr.1 = "sh".data then handleShellCommand w pr.2
  else
    match actions.find? (fun a => a.name == req.action) with
    | some act => runRegistered w.exec act req.params
    | none => handleConversational w cfg req.action

/-- logToDB (part_000 lines 777-787): one insert attempt per call; an
insert error is logged and swallowed, reflected here only in the recorded
success flag. -/
def logToDB (ok : Bool) (action : Str) (req : ActionRequest) (resp : JObj) : AuditRec × Bool :=
  (⟨action, serializeActionRequest req, serializeJVal (JVal.obj resp)⟩, ok)

/-- actionHandler (part_000 lines 448-514).  auditOk is the outcome the
audit store would give to the single insert this request performs. -/
def actionHandler (w : World) (auditOk : Bool) (cfg : Config) (actions : List ActionT)
    (method rawBody : Str) : HandlerOut :=
  if method = "POST".data then
    match decodeActionRequest rawBody with
    | none => ⟨400, [("error".data, JVal.str "Invalid JSON".data)], []⟩
    | some req =>
      let resp := routeAction w cfg actions req
      ⟨200, resp, [logToDB auditOk req.action req resp]⟩
  else ⟨405, [("error".data, JVal.str "Method not allowed".data)], []⟩

-- ----------------------
-- The hartley-main.go variant of the handler.  It differs from the
-- part_000 variant in three ways: the system prompt is read from
-- systemPrompt.txt INSIDE the handler with log.Fatalf on failure
-- (hartley-main.go lines 200-203), there is no directive dispatch, and a
-- generated-output parse failure falls back to the envelope directly
-- without calling an extractor (lines 280-287).
-- ----------------------

namespace HM

/-- Result of one request against the hartley-main.go handler: either the
whole process is terminated by log.Fatalf, or a reply is produced. -/
inductive HMOut where
  | fatal : Str → HMOut
  | reply : Nat → JObj → List (Hartley.AuditRec × Bool) → HMOut

/-- The generated-code stages of hartley-main.go (lines 256-290): like
execGenerated but with no extraction fallback after a parse failure. -/
def runGenerated (w : World) (env : GeminiResponse) (code : Str) : JObj :=
  match w.tmpCreate with
  | none => geminiRespToMap env
  | some name =>
    if w.tmpWrite code = false then geminiRespToMap env
    else
      let r := runPython w.exec [name]
      match r.err with
      | some _ => geminiRespToMap env
      | none =>
        match jsonDecObj r.out with
        | some parsed => parsed
        | none => geminiRespToMap env

/-- The freeform generation path of hartley-main.go (lines 207-296), with
promptText the concatenation of the file-read system prompt and the query. -/
def freeform (w : World) (cfg : Config) (systemPrompt query : Str) : JObj :=
  match w.post (geminiURL cfg) (geminiBody (systemPrompt ++ query)) with
  | PostOutcome.netErr => [("error".data, JVal.str "Error calling Gemini API".data)]
  | PostOutcome.readErr => [("error".data, JVal.str "Error reading Gemini response".data)]
  | PostOutcome.ok body =>
    match decodeGemini body with
    | none =>
      [("error".data, JVal.str "Error parsing Gemini response".data),
       ("raw_response".data, JVal.str body)]
    | some env =>
      match env.candidates with
      | [] =>
        [("error".data, JVal.str "No content generated by Gemini".data),
         ("raw_response".data, JVal.str body)]
      | c0 :: _ =>
        match c0.content.parts with
        | [] =>
          [("error".data, JVal.str "No content generated by Gemini".data),
           ("raw_response".data, JVal.str body)]
        | p0 :: _ => runGenerated w env p0.text

def promptFatalMsg : Str := "Error reading systemPrompt.txt".data

/-- actionHandler of hartley-main.go (lines 152-301).  readPrompt is the
outcome of the ioutil.ReadFile of systemPrompt.txt performed inside the
handler; none models a read error, on which the source calls log.Fatalf. -/
def actionHandler (w : World) (readPrompt : Option Str) (auditOk : Bool) (cfg : Config)
    (actions : List ActionT) (method rawBody : Str) : HMOut :=
  if method = "POST".data then
    match decodeActionRequest rawBody with
    | none => HMOut.reply 400 [("error".data, JVal.str "Invalid JSON".data)] []
    | some req =>
      let found := actions.find? (fun a => a.name == req.action)
      let resp0 : JObj :=
        match found with
        | some act => runRegistered w.exec act req.params
        | none => []
      match readPrompt with
      | none => HMOut.fatal promptFatalMsg
      | some sp =>
        let resp :=
          match found with
          | some _ => resp0
          | none => freeform w cfg sp req.action
        HMOut.reply 200 resp [logToDB auditOk req.action req resp]
  else HMOut.reply 405 [("error".data, JVal.str "Method not allowed".data)] []

end HM

-- ----------------------
-- Specification-side definitions, written from the wording of the spec,
-- to be compared against the source embeddings above.
-- ----------------------

/-- Written from the spec of the Action Classifier: a directive route is
taken exactly when the action has at least 3 characters, the 3rd character
is a space, and the first 2 characters are a recognised code; the payload
is the remainder after the space, trimmed. -/
def directiveSpec (s : Str) : Str × Str :=
  if 3 ≤ s.length ∧ s.get? 2 = some spaceC ∧ (s.take 2 = "py".data ∨ s.take 2 = "sh".data)
  then (s.take 2, trim (s.drop 3))
  else ([], s)

/-- Written from the spec of the Output Extractor fallback policy: split by
line, scan from the last line backward, and take the first line (from the
bottom) that decodes as a standalone JSON object. -/
def extractScanSpec (output : Str) : Option JObj :=
  ((splitNl output).reverse.filterMap fun l => jsonDecObj (trim l)).head?

/-- The empty-envelope test of the source: no candidates, or no parts in
the first candidate. -/
def noContentCheck (env : GeminiResponse) : Bool :=
  match env.candidates with
  | [] => true
  | c0 :: _ => c0.content.parts.isEmpty

/-- The no-content ExecutionResult built by the source. -/
def noContentResp (body : Str) : JObj :=
  [("error".data, JVal.str "No content generated by Gemini".data),
   ("raw_response".data, JVal.str body)]

/-- The text of the first part of the first candidate. -/
def firstText (env : GeminiResponse) : Str :=
  match env.candidates with
  | [] => []
  | c0 :: _ =>
    match c0.content.parts with
    | [] => []
    | p0 :: _ => p0.text

/-- One of the post-envelope stages fails for this world: temp-file
creation, the temp-file write of the generated code, the interpreter run,
or the extraction of the run output. -/
def genStageFails (w : World) (code : Str) : Prop :=
  w.tmpCreate = none ∨
    ∃ name, w.tmpCreate = some name ∧
      (w.tmpWrite code = false ∨
        (runPython w.exec [name]).err ≠ none ∨
        ∃ m, extractValidJSON (runPython w.exec [name]).out = Except.error m)

-- ----------------------
-- Concrete values used by the witness theorems.
-- ----------------------

def cfg0 : Config := ⟨8080, "k".data, "https://gemini.example/v1".data⟩

/-- A world in which nothing external succeeds. -/
def wQuiet : World :=
  ⟨fun _ _ => ⟨[], some ExecErr.notFound⟩, fun _ _ => PostOutcome.netErr, none, fun _ => false⟩

/-- An exec oracle on which every interpreter candidate is missing. -/
def exAllMissing : Str → List Str → ExecResult :=
  fun _ _ => ⟨[], some ExecErr.notFound⟩

/-- An exec oracle on which python3 runs but the script itself fails. -/
def exScriptFail : Str → List Str → ExecResult :=
  fun b _ =>
    if b = "python3".data then ⟨"Traceback".data, some (ExecErr.failed "exit status 1".data)⟩
    else ⟨[], some ExecErr.notFound⟩

/-- A Gemini body carrying one candidate with one part. -/
def bodyOneCand : Str :=
  "\x7b\"candidates\":[\x7b\"content\":\x7b\"parts\":[\x7b\"text\":\"print(1)\"\x7d]\x7d\x7d]\x7d".data

def envOneCand : GeminiResponse := ⟨[⟨⟨[⟨"print(1)".data⟩], []⟩, []⟩]⟩

/-- A Gemini body with an empty candidates list. -/
def bodyNoCand : Str := "\x7b\"candidates\":[]\x7d".data

/-- A world whose remote call succeeds with one candidate but whose
temp-file creation fails. -/
def wGenFail : World :=
  ⟨exAllMissing, fun _ _ => PostOutcome.ok bodyOneCand, none, fun _ => false⟩

/-- A world whose remote call succeeds with an empty candidates list. -/
def wNoCand : World :=
  ⟨exAllMissing, fun _ _ => PostOutcome.ok bodyNoCand, none, fun _ => false⟩

def rawGetTime : Str := "\x7b\"action\":\"get_time\",\"params\":\x7b\x7d\x7d".data

def actGetTime : ActionT :=
  ⟨"get_time".data, "returns the time".data, "python/action_runner.py".data, "get_time".data⟩

def rawPyLs : Str := "\x7b\"action\":\"py ls\",\"params\":\x7b\x7d\x7d".data

/-- An action registered under a name that also carries a directive code,
to exercise the tie-break. -/
def actPyLs : ActionT := ⟨"py ls".data, "d".data, "s.py".data, "f".data⟩

def rawHiOne : Str := "\x7b\"action\":\"hi\",\"params\":\x7b\"x\":1\x7d\x7d".data

def rawHiTwo : Str := "\x7b\"action\":\"hi\",\"params\":\x7b\"x\":2\x7d\x7d".data

def rawHello : Str := "\x7b\"action\":\"hello\",\"params\":\x7b\x7d\x7d".data

def inputTrailingNoise : Str :=
  "progress line\x0a\x7b\"result\": 42\x7d\x0a".data

def inputSingleObj : Str := "\x7b\"ok\":true\x7d".data

-- ----------------------
-- Helper lemmas
-- ----------------------

theorem jsonDecObj_nil : jsonDecObj [] = none := rfl

/-- The backward scan of extractValidJSON picks exactly the first decodable
trimmed line of the (already reversed) line list. -/
theorem scanBack_eq_filterMap (ls : List Str) :
    scanBack ls = (match (ls.filterMap fun l => jsonDecObj (trim l)).head? with
      | some o => Except.ok o
      | none => Except.error noJSONFoundMsg) := by
  induction ls with
  | nil => rfl
  | cons l rest ih =>
    by_cases hb : trim l = []
    · have hnone : jsonDecObj (trim l) = none := by rw [hb]; exact jsonDecObj_nil
      simp only [scanBack, hb, if_pos, List.filterMap_cons, hnone]
      exact ih
    · cases hd : jsonDecObj (trim l) with
      | none =>
        simp only [scanBack, if_neg hb, hd, List.filterMap_cons]
        exact ih
      | some o =>
        simp only [scanBack, if_neg hb, hd, List.filterMap_cons, List.head?_cons]

/-- extractValidJSON reports an error only when the whole output did not
decode as an object. -/
theorem extract_error_decode_none {out : Str} {m : Str}
    (h : extractValidJSON out = Except.error m) : jsonDecObj out = none := by
  cases hd : jsonDecObj out with
  | none => rfl
  | some o =>
    unfold extractValidJSON at h
    rw [hd] at h
    exact absurd h (by simp)

-- ----------------------
-- Claim theorems
-- ----------------------

/-- Claim C8: for every byte sequence that is exactly one valid JSON object
(that is, on which whole-input decoding succeeds), the output extractor
returns that object unchanged, short-circuiting before the line-scanning
policy is reached. -/
theorem extract_whole_object_roundtrip (output : Str) (o : JObj)
    (h : jsonDecObj output = some o) : extractValidJSON output = Except.ok o := by
  unfold extractValidJSON
  rw [h]

theorem extract_whole_object_roundtrip_witness :
    extractValidJSON inputSingleObj = Except.ok [("ok".data, JVal.bool true)] :=
  extract_whole_object_roundtrip inputSingleObj [("ok".data, JVal.bool true)] rfl

/-- Claim C7: for every byte sequence that does not decode in whole as a
JSON object, the extractor splits it into lines and returns the first line
from the bottom whose trimmed content decodes as a standalone JSON object
(blank lines never decode, hence are skipped); when no line decodes it
returns the not-found error value of its Except result, and being a total
function it never raises a fault. -/
theorem extract_line_scan (output : Str) (h : jsonDecObj output = none) :
    extractValidJSON output = (match extractScanSpec output with
      | some o => Except.ok o
      | none => Except.error noJSONFoundMsg) := by
  unfold extractValidJSON extractScanSpec
  rw [h]
  exact scanBack_eq_filterMap (splitNl output).reverse

theorem extract_line_scan_witness :
    extractValidJSON inputTrailingNoise = Except.ok [("result".data, JVal.num 42)] := by
  have h := extract_line_scan inputTrailingNoise rfl
  rw [h]
  rfl

/-- Claim C4: runPython tries the candidate binaries in the fixed order
python3, python, py.  The first conjunct characterises the advance test:
a candidate is abandoned exactly when its attempt errored and either the
error is process-not-found or the combined output contains the sentinel.
The remaining conjuncts show: when the first attempt does not satisfy the
advance test (in particular when the interpreter ran and the script
failed), its full result — combined output together with the error — is
returned and no further candidate is consulted (the result is unchanged
under any oracle agreeing on the attempts made); likewise for the second
candidate; and when the first two attempts both satisfy the advance test,
the third attempt result, output and error alike, is returned. -/
theorem runPython_fallback_order :
    (∀ r : ExecResult, pyFallback r = true ↔
      r.err ≠ none ∧ (r.err = some ExecErr.notFound ∨ containsStr r.out pySentinel = true)) ∧
    (∀ (ex : Str → List Str → ExecResult) (args : List Str),
      (pyFallback (ex "python3".data args) = false →
        runPython ex args = ex "python3".data args ∧
        ∀ ex2 : Str → List Str → ExecResult,
          ex2 "python3".data args = ex "python3".data args →
          runPython ex2 args = ex "python3".data args) ∧
      (pyFallback (ex "python3".data args) = true →
        pyFallback (ex "python".data args) = false →
        runPython ex args = ex "python".data args ∧
        ∀ ex2 : Str → List Str → ExecResult,
          ex2 "python3".data args = ex "python3".data args →
          ex2 "python".data args = ex "python".data args →
          runPython ex2 args = ex "python".data args) ∧
      (pyFallback (ex "python3".data args) = true →
        pyFallback (ex "python".data args) = true →
        runPython ex args = ex "py".data args)) := by
  constructor
  · intro r
    unfold pyFallback
    cases hr : r.err with
    | none => simp
    | some e =>
      cases e with
      | notFound =>
        simp
        exact Or.inl rfl
      | failed m =>
        simp
        intro hh
        have hf : (ExecErr.failed m == ExecErr.notFound) = false := rfl
        rw [hf] at hh
        exact absurd hh (by simp)
  · intro ex args
    refine ⟨?_, ?_, ?_⟩
    · intro h
      constructor
      · simp only [runPython]
        rw [h]
        simp
      · intro ex2 he
        simp only [runPython]
        rw [he, h]
        simp
    · intro h3 hp
      constructor
      · simp only [runPython]
        rw [h3, hp]
        simp
      · intro ex2 he3 hep
        simp only [runPython]
        rw [he3, h3, hep, hp]
        simp
    · intro h3 hp
      simp only [runPython]
      rw [h3, hp]
      simp

theorem runPython_fallback_order_witness :
    runPython exAllMissing ["s.py".data] = exAllMissing "py".data ["s.py".data] ∧
    runPython exScriptFail ["s.py".data] = exScriptFail "python3".data ["s.py".data] :=
  ⟨(runPython_fallback_order.2 exAllMissing ["s.py".data]).2.2 rfl rfl,
   ((runPython_fallback_order.2 exScriptFail ["s.py".data]).1 rfl).1⟩

/-- Claim C6: the classifier routes to a directive exactly when the action
has at least 3 characters, its 3rd character is a space, and its first 2
characters are exactly py or sh, the payload being the trimmed remainder
after the space (first conjunct: parsePfx agrees everywhere with the
condition written from the spec); and the directive check runs before the
registry lookup, so for any registry — including one containing the very
action string — a directive-shaped action is handled by the directive
path (second conjunct). -/
theorem classifier_directive_condition :
    (∀ s : Str, parsePfx s = directiveSpec s) ∧
    (∀ (w : World) (ok : Bool) (cfg : Config) (acts : List ActionT) (raw : Str)
      (req : ActionRequest), decodeActionRequest raw = some req →
      ((parsePfx req.action).1 = "py".data →
        (actionHandler w ok cfg acts "POST".data raw).body
          = handlePythonCommand w cfg (parsePfx req.action).2) ∧
      ((parsePfx req.action).1 = "sh".data →
        (actionHandler w ok cfg acts "POST".data raw).body
          = handleShellCommand w (parsePfx req.action).2)) := by
  constructor
  · intro s
    rcases s with _ | ⟨c0, _ | ⟨c1, _ | ⟨c2, rest⟩⟩⟩
    · rfl
    · rfl
    · rfl
    · have hlen : 3 ≤ (c0 :: c1 :: c2 :: rest).length := by
        simp [List.length_cons]
      have hget : (c0 :: c1 :: c2 :: rest).get? 2 = some c2 := rfl
      have htake : (c0 :: c1 :: c2 :: rest).take 2 = [c0, c1] := rfl
      have hdrop : (c0 :: c1 :: c2 :: rest).drop 3 = rest := rfl
      by_cases h2 : c2 = spaceC
      · by_cases hps : [c0, c1] = "py".data ∨ [c0, c1] = "sh".data
        · rcases hps with hp | hp
          · simp [parsePfx, directiveSpec, h2, hp, htake, hdrop]
          · simp [parsePfx, directiveSpec, h2, hp, htake, hdrop]
        · have hc : ¬(3 ≤ (c0 :: c1 :: c2 :: rest).length ∧
              (c0 :: c1 :: c2 :: rest).get? 2 = some spaceC ∧
              ((c0 :: c1 :: c2 :: rest).take 2 = "py".data ∨
                (c0 :: c1 :: c2 :: rest).take 2 = "sh".data)) := by
            rintro ⟨-, -, hor⟩
            rw [htake] at hor
            exact hps hor
          simp only [parsePfx, directiveSpec, if_pos h2, if_neg hps, if_neg hc]
      · have hc : ¬(3 ≤ (c0 :: c1 :: c2 :: rest).length ∧
            (c0 :: c1 :: c2 :: rest).get? 2 = some spaceC ∧
            ((c0 :: c1 :: c2 :: rest).take 2 = "py".data ∨
              (c0 :: c1 :: c2 :: rest).take 2 = "sh".data)) := by
          rintro ⟨-, hsp, -⟩
          rw [hget] at hsp
          exact h2 (Option.some.injEq .. ▸ hsp)
        simp only [parsePfx, directiveSpec, if_neg h2, if_neg hc]
  · intro w ok cfg acts raw req hdec
    constructor
    · intro hpy
      simp only [actionHandler, if_pos rfl, hdec, routeAction, hpy, if_pos]
    · intro hsh
      have hnotpy : ¬((parsePfx req.action).1 = "py".data) := by
        rw [hsh]
        decide
      simp only [actionHandler, if_pos rfl, hdec, routeAction, hsh, if_pos, if_neg hnotpy]
      rw [if_neg (by decide)]

theorem classifier_directive_condition_witness :
    parsePfx "py ls".data = ("py".data, "ls".data) ∧
    (actionHandler wQuiet true cfg0 [actPyLs] "POST".data rawPyLs).body
      = handlePythonCommand wQuiet cfg0 "ls".data := by
  constructor
  · rw [classifier_directive_condition.1 "py ls".data]
    rfl
  · have h := ((classifier_directive_condition.2 wQuiet true cfg0 [actPyLs] rawPyLs
      ⟨"py ls".data, []⟩ rfl).1 rfl)
    rw [h]
    rfl

/-- Claim C5: when the action string carries no directive code and is the
name of a registered action (first match of the lookup), the response body
is produced by running that action through the interpreter runner with
arguments scriptPath, entryPoint, and the request params serialised as
JSON — that is what runRegistered does — and the remote generation
collaborator is never consulted: the whole handler outcome is unchanged
under an arbitrary replacement of the post oracle. -/
theorem registered_action_local_run :
    ∀ (w : World) (ok : Bool) (cfg : Config) (acts : List ActionT) (raw : Str)
      (req : ActionRequest) (act : ActionT),
      decodeActionRequest raw = some req →
      (parsePfx req.action).1 = [] →
      acts.find? (fun a => a.name == req.action) = some act →
      (actionHandler w ok cfg acts "POST".data raw).body = runRegistered w.exec act req.params ∧
      (∀ post2 : Str → Str → PostOutcome,
        actionHandler { w with post := post2 } ok cfg acts "POST".data raw
          = actionHandler w ok cfg acts "POST".data raw) := by
  intro w ok cfg acts raw req act hdec hpfx hfind
  have hnotpy : ¬((parsePfx req.action).1 = "py".data) := by
    rw [hpfx]
    decide
  have hnotsh : ¬((parsePfx req.action).1 = "sh".data) := by
    rw [hpfx]
    decide
  constructor
  · simp only [actionHandler, if_pos rfl, hdec, routeAction, if_neg hnotpy, if_neg hnotsh,
      hfind, if_true]
  · intro post2
    simp only [actionHandler, if_pos rfl, hdec, routeAction, if_neg hnotpy, if_neg hnotsh,
      hfind, if_true]

theorem registered_action_local_run_witness :
    (actionHandler wQuiet true cfg0 [actGetTime] "POST".data rawGetTime).body
      = runRegistered wQuiet.exec actGetTime [] ∧
    actionHandler { wQuiet with post := fun _ _ => PostOutcome.readErr } true cfg0
        [actGetTime] "POST".data rawGetTime
      = actionHandler wQuiet true cfg0 [actGetTime] "POST".data rawGetTime := by
  have h := registered_action_local_run wQuiet true cfg0 [actGetTime] rawGetTime
    ⟨"get_time".data, []⟩ actGetTime rfl rfl rfl
  exact ⟨h.1, h.2 (fun _ _ => PostOutcome.readErr)⟩

/-- Claim C10: two well-formed POST requests with the same action string
that matches no registered action, differing only in params, receive
identical response bodies against the same collaborator behaviour: the
directive and freeform generation paths never read params. -/
theorem params_noninterference :
    ∀ (w : World) (ok1 ok2 : Bool) (cfg : Config) (acts : List ActionT)
      (raw1 raw2 : Str) (req1 req2 : ActionRequest),
      decodeActionRequest raw1 = some req1 →
      decodeActionRequest raw2 = some req2 →
      req1.action = req2.action →
      acts.find? (fun a => a.name == req1.action) = none →
      (actionHandler w ok1 cfg acts "POST".data raw1).body
        = (actionHandler w ok2 cfg acts "POST".data raw2).body := by
  intro w ok1 ok2 cfg acts raw1 raw2 req1 req2 hdec1 hdec2 ha hfind
  simp only [actionHandler, if_pos rfl, hdec1, hdec2, routeAction, ha]
  rw [ha] at hfind
  by_cases hpy : (parsePfx req2.action).1 = "py".data
  · simp only [hpy, if_pos]
  · by_cases hsh : (parsePfx req2.action).1 = "sh".data
    · simp only [hsh, if_pos, if_neg hpy]
    · simp only [if_neg hpy, if_neg hsh, hfind, if_true]

theorem params_noninterference_witness :
    (actionHandler wQuiet true cfg0 [] "POST".data rawHiOne).body
      = (actionHandler wQuiet true cfg0 [] "POST".data rawHiTwo).body :=
  params_noninterference wQuiet true true cfg0 [] rawHiOne rawHiTwo
    ⟨"hi".data, [("x".data, JVal.num 1)]⟩ ⟨"hi".data, [("x".data, JVal.num 2)]⟩
    rfl rfl rfl rfl

/-- Claim C2, counterexample: a GET request reaches the handler and is
answered with a method-not-allowed response, yet the handler makes zero
audit-record attempts — so it is not the case that every request the
handler receives leads to exactly one logToDB call. -/
theorem handler_get_no_audit :
    (actionHandler wQuiet true cfg0 [] "GET".data []).audits = [] ∧
    (actionHandler wQuiet true cfg0 [] "GET".data []).status = 405 := ⟨rfl, rfl⟩

/-- Claim C2, amended: every POST request whose body decodes produces
exactly one response (status 200 carrying one body) and exactly one audit
attempt, and the outcome of that audit write never changes the response
body. -/
theorem post_request_single_audit :
    ∀ (w : World) (ok1 ok2 : Bool) (cfg : Config) (acts : List ActionT)
      (raw : Str) (req : ActionRequest),
      decodeActionRequest raw = some req →
      (actionHandler w ok1 cfg acts "POST".data raw).audits.length = 1 ∧
      (actionHandler w ok1 cfg acts "POST".data raw).status = 200 ∧
      (actionHandler w ok1 cfg acts "POST".data raw).body
        = (actionHandler w ok2 cfg acts "POST".data raw).body := by
  intro w ok1 ok2 cfg acts raw req hdec
  simp only [actionHandler, if_pos rfl, hdec, if_true]
  simp

theorem post_request_single_audit_witness :
    (actionHandler wQuiet true cfg0 [] "POST".data rawHello).audits.length = 1 ∧
    (actionHandler wQuiet false cfg0 [] "POST".data rawHello).body
      = (actionHandler wQuiet true cfg0 [] "POST".data rawHello).body := by
  have h := post_request_single_audit wQuiet true false cfg0 [] rawHello
    ⟨"hello".data, []⟩ rfl
  exact ⟨h.1, (h.2.2).symm⟩

-- Helper lemmas for the generation-path claims.

/-- Unfolding of the shared remote-generation stages once the POST
succeeded and the envelope decoded. -/
theorem generateAndRun_ok (w : World) (cfg : Config) (prompt body : Str)
    (env : GeminiResponse)
    (hpost : w.post (geminiURL cfg) (geminiBody prompt) = PostOutcome.ok body)
    (hdec : decodeGemini body = some env) :
    generateAndRun w cfg prompt = (match env.candidates with
      | [] => noContentResp body
      | c0 :: _ =>
        match c0.content.parts with
        | [] => noContentResp body
        | p0 :: _ => execGenerated w env p0.text) := by
  unfold generateAndRun
  simp only [hpost, hdec, noContentResp]

/-- Whenever one of the post-envelope stages fails, execGenerated falls
back to the envelope converted to a map. -/
theorem execGenerated_fails (w : World) (env : GeminiResponse) (code : Str)
    (h : genStageFails w code) : execGenerated w env code = geminiRespToMap env := by
  unfold execGenerated
  unfold genStageFails at h
  rcases h with hnone | ⟨name, hname, hrest⟩
  · simp only [hnone]
  · simp only [hname]
    by_cases hw : w.tmpWrite code = false
    · simp only [hw, if_pos]
    · simp only [if_neg hw]
      rcases hrest with hw2 | herr | ⟨m, hext⟩
      · exact absurd hw2 hw
      · cases he : (runPython w.exec [name]).err with
        | none => exact absurd he herr
        | some e => simp only [he]
      · cases he : (runPython w.exec [name]).err with
        | some e => simp only [he]
        | none =>
          have hdn : jsonDecObj (runPython w.exec [name]).out = none :=
            extract_error_decode_none hext
          simp only [he, hdn, hext]

/-- Claim C9: a successfully decoded envelope with no candidates, or whose
first candidate has no parts, is answered on both generation paths with
the explicit no-content ExecutionResult carrying the raw response body;
the embedded pipeline is a total function whose empty-sequence cases are
handled by pattern matching, so no out-of-range access exists. -/
theorem empty_envelope_no_content :
    ∀ (w : World) (cfg : Config) (body : Str) (env : GeminiResponse),
      decodeGemini body = some env →
      noContentCheck env = true →
      (∀ payload : Str,
        w.post (geminiURL cfg) (geminiBody (pyGenPrompt payload)) = PostOutcome.ok body →
        handlePythonCommand w cfg payload = noContentResp body) ∧
      (∀ query : Str,
        w.post (geminiURL cfg) (geminiBody (personaPrompt query)) = PostOutcome.ok body →
        handleConversational w cfg query = noContentResp body) := by
  intro w cfg body env hdec hnc
  have main : ∀ prompt : Str,
      w.post (geminiURL cfg) (geminiBody prompt) = PostOutcome.ok body →
      generateAndRun w cfg prompt = noContentResp body := by
    intro prompt hpost
    rw [generateAndRun_ok w cfg prompt body env hpost hdec]
    unfold noContentCheck at hnc
    cases hcand : env.candidates with
    | nil => simp only [hcand]
    | cons c0 cs =>
      rw [hcand] at hnc
      simp only [List.isEmpty_iff] at hnc
      simp only [hcand, hnc]
  exact ⟨fun payload hpost => main (pyGenPrompt payload) hpost,
    fun query hpost => main (personaPrompt query) hpost⟩

theorem empty_envelope_no_content_witness :
    handlePythonCommand wNoCand cfg0 "weather".data = noContentResp bodyNoCand :=
  (empty_envelope_no_content wNoCand cfg0 bodyNoCand ⟨[]⟩ rfl rfl).1 "weather".data rfl

/-- Claim C3: on the py-directive and freeform generation paths, when a
non-empty envelope was decoded but a later stage fails — temp-file
creation or write, interpreter execution, or output extraction — the
result returned is the decoded envelope itself converted to a map with its
candidates verbatim, not a generic error object. -/
theorem envelope_fallback_after_decode :
    ∀ (w : World) (cfg : Config) (body : Str) (env : GeminiResponse),
      decodeGemini body = some env →
      noContentCheck env = false →
      genStageFails w (firstText env) →
      (∀ payload : Str,
        w.post (geminiURL cfg) (geminiBody (pyGenPrompt payload)) = PostOutcome.ok body →
        handlePythonCommand w cfg payload = geminiRespToMap env) ∧
      (∀ query : Str,
        w.post (geminiURL cfg) (geminiBody (personaPrompt query)) = PostOutcome.ok body →
        handleConversational w cfg query = geminiRespToMap env) := by
  intro w cfg body env hdec hnc hfail
  have main : ∀ prompt : Str,
      w.post (geminiURL cfg) (geminiBody prompt) = PostOutcome.ok body →
      generateAndRun w cfg prompt = geminiRespToMap env := by
    intro prompt hpost
    rw [generateAndRun_ok w cfg prompt body env hpost hdec]
    unfold noContentCheck at hnc
    unfold firstText at hfail
    cases hcand : env.candidates with
    | nil =>
      rw [hcand] at hnc
      simp at hnc
    | cons c0 cs =>
      simp only [hcand] at hnc hfail
      simp only [hcand]
      cases hp : c0.content.parts with
      | nil =>
        simp only [hp] at hnc
        simp at hnc
      | cons p0 ps =>
        simp only [hp] at hfail
        simp only [hp]
        exact execGenerated_fails w env p0.text hfail
  exact ⟨fun payload hpost => main (pyGenPrompt payload) hpost,
    fun query hpost => main (personaPrompt query) hpost⟩

theorem envelope_fallback_after_decode_witness :
    handlePythonCommand wGenFail cfg0 "add 2 and 2".data = geminiRespToMap envOneCand :=
  (envelope_fallback_after_decode wGenFail cfg0 bodyOneCand envOneCand rfl rfl
    (Or.inl rfl)).1 "add 2 and 2".data rfl

/-- Claim C1, code bug: in hartley-main.go the system prompt file is read
inside actionHandler with log.Fatalf on failure, so an ordinary POST
request handled while systemPrompt.txt is unreadable terminates the whole
process during request handling instead of being converted into a
structured error result — contradicting the policy that only startup
failures are fatal.  The theorem evaluates the embedded hartley-main.go
handler at that failing input. -/
theorem hm_prompt_read_fatal_during_request :
    HM.actionHandler wQuiet none true cfg0 [] "POST".data rawHello
      = HM.HMOut.fatal HM.promptFatalMsg := rfl

end Hartley
